import Mathlib

/-!
Verification of the OmniX moderation bot core against its specification.

Shallow embedding of the Python sources under `spisdil_moder_bot/`:
models, pipeline, punishment aggregator, rule registry, rule service,
batcher, OpenAI adapter retry loop and the contextual (chatgpt) layer.
Asynchronous code is modelled by explicit state passing; external
services (the LLM synthesizer, the HTTP transport) are modelled as
inputs supplied to the embedded functions.
-/

/-- `models.LayerType` (`models.py`). -/
inductive LayerType where
  | regex
  | omni
  | chatgpt
deriving DecidableEq, Repr

/-- `models.ViolationPriority` (`models.py`): an IntEnum; comparisons use
the integer value, exposed here as `val`. -/
inductive ViolationPriority where
  | threats
  | nsfw
  | hate
  | spam
  | other
deriving DecidableEq, Repr

/-- Integer value of a `ViolationPriority` member (THREATS=100, NSFW=80,
HATE=70, SPAM=50, OTHER=10). -/
def ViolationPriority.val : ViolationPriority → Nat
  | .threats => 100
  | .nsfw => 80
  | .hate => 70
  | .spam => 50
  | .other => 10

/-- `models.ActionType` (`models.py`). -/
inductive ActionType where
  | delete
  | warn
  | mute
  | ban
  | none
deriving DecidableEq, Repr

/-- `models.RuleType` (`models.py`). -/
inductive RuleType where
  | regex
  | semantic
  | contextual
deriving DecidableEq, Repr

/-- `models.RuleSource` (`models.py`): Literal["admin", "auto"]. -/
inductive RuleSource where
  | admin
  | auto
deriving DecidableEq, Repr

/-- `models.ChatContext` (`models.py`).  The timestamp is opaque for the
claims considered here and is modelled as an integer tick. -/
structure ChatContext where
  chat_id : Int
  user_id : Int
  message_id : Int
  timestamp : Int
  username : Option String := Option.none
  language_code : Option String := Option.none
deriving DecidableEq, Repr

/-- `models.MessageEnvelope` (`models.py`).  The free-form metadata dict
is not inspected by any claim and is omitted. -/
structure MessageEnvelope where
  context : ChatContext
  text : Option String := Option.none
  caption : Option String := Option.none
  media_type : Option String := Option.none
  images : List String := []
deriving DecidableEq, Repr

/-- Python string truthiness fallback `a or b` for an optional string. -/
def pyStrOr (a : Option String) (b : String) : String :=
  match a with
  | Option.some s => if s = "" then b else s
  | Option.none => b

/-- `MessageEnvelope.content_text`: `self.text or self.caption or ""`. -/
def MessageEnvelope.content_text (e : MessageEnvelope) : String :=
  pyStrOr e.text (pyStrOr e.caption "")

/-- `models.ModerationVerdict` (`models.py`).  The `details` dict carries
auxiliary payload not referenced by any claim and is omitted. -/
structure ModerationVerdict where
  layer : LayerType
  rule_code : String
  priority : ViolationPriority
  action : ActionType
  reason : String
  violated : Bool
deriving DecidableEq, Repr

/-- `ModerationVerdict.short_circuit`: `self.violated and self.action != ActionType.NONE`. -/
def ModerationVerdict.short_circuit (v : ModerationVerdict) : Bool :=
  v.violated && v.action != ActionType.none

/-- `models.ModerationResult` (`models.py`). -/
structure ModerationResult where
  message : MessageEnvelope
  verdict : Option ModerationVerdict
  evaluated_layers : List LayerType := []
deriving DecidableEq, Repr

/-- `models.ModerationRule` (`models.py`).  The metadata dict is modelled
by its only field read by the core, the optional `aliases` list used by
the contextual layer (`metadata.get("aliases")`). -/
structure ModerationRule where
  rule_id : String
  description : String
  action : ActionType
  source : RuleSource
  layer : LayerType
  rule_type : RuleType
  chat_id : Option Int := Option.none
  pattern : Option String := Option.none
  category : Option String := Option.none
  priority : ViolationPriority := ViolationPriority.other
  action_duration_seconds : Option Int := Option.none
  aliases : List String := []
deriving DecidableEq, Repr

/-! ## Pipeline (`pipeline/pipeline.py`)

A layer is its `layer_type`, its numeric `priority` and its `evaluate`
function; evaluation of a single layer on a single envelope is modelled
as a pure function supplied when the layer is built (the claims quantify
over all behaviours of the layers). -/

/-- A moderation layer as seen by `ModerationPipeline`
(`pipeline/layers/base.py`): a layer type, the numeric priority used for
ordering (`__lt__` compares priorities) and the `evaluate` function. -/
structure ModerationLayer where
  layer_type : LayerType
  priority : Nat
  eval : MessageEnvelope → Option ModerationVerdict

/-- Insertion of a layer into a priority-sorted list, keeping equal
priorities in encounter order (Python `sorted` is stable and uses
`ModerationLayer.__lt__`). -/
def insertByPriority (l : ModerationLayer) : List ModerationLayer → List ModerationLayer
  | [] => [l]
  | x :: xs => if l.priority < x.priority then l :: x :: xs else x :: insertByPriority l xs

/-- `ModerationPipeline.__init__`: `ordered = sorted(layers)`. -/
def sortLayers (layers : List ModerationLayer) : List ModerationLayer :=
  layers.foldr insertByPriority []

/-- `ModerationPipeline.process_message` (`pipeline/pipeline.py`,
lines 31-70): walk the ordered layers; skip layers in `disabled_layers`;
append the layer type to `evaluated` right before calling `evaluate`;
return immediately on a short-circuiting verdict, otherwise continue and
finish with `verdict=None`. -/
def process_message (layers : List ModerationLayer) (disabled : List LayerType)
    (msg : MessageEnvelope) : ModerationResult :=
  match layers with
  | [] => { message := msg, verdict := Option.none, evaluated_layers := [] }
  | l :: rest =>
    if l.layer_type ∈ disabled then
      process_message rest disabled msg
    else
      match l.eval msg with
      | Option.some v =>
        if v.short_circuit then
          { message := msg, verdict := Option.some v, evaluated_layers := [l.layer_type] }
        else
          let r := process_message rest disabled msg
          { message := msg, verdict := r.verdict,
            evaluated_layers := l.layer_type :: r.evaluated_layers }
      | Option.none =>
        let r := process_message rest disabled msg
        { message := msg, verdict := r.verdict,
          evaluated_layers := l.layer_type :: r.evaluated_layers }

/-- The layers of the pipeline that are not in the disabled set, in
pipeline order: exactly the layers `process_message` may evaluate. -/
def enabledLayers (layers : List ModerationLayer) (disabled : List LayerType) :
    List ModerationLayer :=
  layers.filter (fun l => decide (l.layer_type ∉ disabled))

/-- An evaluation outcome that does not short-circuit the pipeline:
either no verdict, or a verdict with `short_circuit() = false`. -/
def noShortCircuit (o : Option ModerationVerdict) : Prop :=
  ∀ w, o = Option.some w → w.short_circuit = false

lemma process_message_enabled (layers : List ModerationLayer) (disabled : List LayerType)
    (msg : MessageEnvelope) :
    process_message layers disabled msg =
      process_message (enabledLayers layers disabled) [] msg := by
  induction layers with
  | nil => rfl
  | cons l rest ih =>
    by_cases h : l.layer_type ∈ disabled
    · simp [process_message, enabledLayers, h, List.filter] at ih ⊢
      simpa [enabledLayers] using ih
    · simp [process_message, enabledLayers, h, List.filter] at ih ⊢
      cases hv : l.eval msg with
      | none => simp [process_message, hv, ← ih, enabledLayers]
      | some v =>
        by_cases hsc : v.short_circuit
        · simp [process_message, hv, hsc]
        · simp [process_message, hv, hsc, ← ih, enabledLayers]

lemma process_message_no_disabled_short_circuit
    (pre post : List ModerationLayer) (lk : ModerationLayer)
    (msg : MessageEnvelope) (v : ModerationVerdict)
    (hpre : ∀ l ∈ pre, noShortCircuit (l.eval msg))
    (hk : lk.eval msg = Option.some v) (hsc : v.short_circuit = true) :
    process_message (pre ++ lk :: post) [] msg =
      { message := msg, verdict := Option.some v,
        evaluated_layers := pre.map (fun l => l.layer_type) ++ [lk.layer_type] } := by
  induction pre with
  | nil => simp [process_message, hk, hsc]
  | cons l rest ih =>
    have hl := hpre l (by simp)
    have hrest : ∀ x ∈ rest, noShortCircuit (x.eval msg) := fun x hx => hpre x (by simp [hx])
    cases hv : l.eval msg with
    | none => simp [process_message, hv, ih hrest]
    | some w =>
      have hw : w.short_circuit = false := hl w hv
      simp [process_message, hv, hw, ih hrest]

/-- Claim C1: for every envelope and disabled set, if the sequence of
enabled layers (pipeline order, disabled layers skipped) decomposes as
`pre ++ [lk] ++ post` where no layer of `pre` produces a
short-circuit-eligible verdict and `lk` produces a verdict with
`violated = true` and `action ≠ none`, then `process_message` returns
that verdict and `evaluated_layers` is exactly the layer types of `pre`
followed by `lk`; in the embedding the `evaluated_layers` list is the
trace of `evaluate` calls, so the layers of `post` are never invoked. -/
theorem pipeline_short_circuit
    (layers pre post : List ModerationLayer) (lk : ModerationLayer)
    (disabled : List LayerType) (msg : MessageEnvelope) (v : ModerationVerdict)
    (hdecomp : enabledLayers layers disabled = pre ++ lk :: post)
    (hpre : ∀ l ∈ pre, noShortCircuit (l.eval msg))
    (hk : lk.eval msg = Option.some v)
    (hviol : v.violated = true) (hact : v.action ≠ ActionType.none) :
    process_message layers disabled msg =
      { message := msg, verdict := Option.some v,
        evaluated_layers := pre.map (fun l => l.layer_type) ++ [lk.layer_type] } := by
  have hsc : v.short_circuit = true := by
    simp [ModerationVerdict.short_circuit, hviol, hact]
  rw [process_message_enabled, hdecomp]
  exact process_message_no_disabled_short_circuit pre post lk msg v hpre hk hsc

/-- Witness for C1 on a concrete three-layer pipeline: the second enabled
layer short-circuits, the third is never evaluated. -/
theorem pipeline_short_circuit_witness :
    process_message
      [⟨LayerType.regex, 10, fun _ => Option.none⟩,
       ⟨LayerType.omni, 20, fun _ =>
          Option.some ⟨LayerType.omni, "r-omni", ViolationPriority.nsfw,
            ActionType.delete, "hit", true⟩⟩,
       ⟨LayerType.chatgpt, 30, fun _ =>
          Option.some ⟨LayerType.chatgpt, "r-gpt", ViolationPriority.other,
            ActionType.warn, "late", true⟩⟩]
      [] ⟨⟨1, 2, 3, 0, Option.none, Option.none⟩, Option.some "hello",
          Option.none, Option.none, []⟩ =
      { message := ⟨⟨1, 2, 3, 0, Option.none, Option.none⟩, Option.some "hello",
          Option.none, Option.none, []⟩,
        verdict := Option.some ⟨LayerType.omni, "r-omni", ViolationPriority.nsfw,
          ActionType.delete, "hit", true⟩,
        evaluated_layers := [LayerType.regex, LayerType.omni] } := by
  exact pipeline_short_circuit _
    [⟨LayerType.regex, 10, fun _ => Option.none⟩]
    [⟨LayerType.chatgpt, 30, fun _ =>
        Option.some ⟨LayerType.chatgpt, "r-gpt", ViolationPriority.other,
          ActionType.warn, "late", true⟩⟩]
    ⟨LayerType.omni, 20, fun _ =>
        Option.some ⟨LayerType.omni, "r-omni", ViolationPriority.nsfw,
          ActionType.delete, "hit", true⟩⟩
    [] _ _ rfl
    (by intro l hl; simp at hl; subst hl; intro w hw; simp at hw)
    rfl rfl (by decide)

/-! ## Punishment aggregator (`punishments/aggregator.py`) -/

/-- `LAYER_RANK` (`punishments/aggregator.py`, lines 13-17); the Python
code reads it with `.get(layer, 0)` but every member of `LayerType` is a
key, so the default is unreachable. -/
def LAYER_RANK : LayerType → Nat
  | .regex => 1
  | .omni => 2
  | .chatgpt => 3

/-- The ranking key `(LAYER_RANK[layer], int(priority))` built by
`PunishmentAggregator._is_better`. -/
def rankKey (v : ModerationVerdict) : Nat × Nat :=
  (LAYER_RANK v.layer, v.priority.val)

/-- Python lexicographic tuple comparison `a > b` on pairs of ints. -/
def keyGt (a b : Nat × Nat) : Bool :=
  decide (b.1 < a.1) || (decide (b.1 = a.1) && decide (b.2 < a.2))

/-- Lexicographic `≤` on ranking keys (the reflexive closure of the
order used by `_is_better`). -/
def keyLe (a b : Nat × Nat) : Prop :=
  a.1 < b.1 ∨ (a.1 = b.1 ∧ a.2 ≤ b.2)

/-- `PunishmentAggregator._is_better` (`aggregator.py`, lines 59-68). -/
def is_better (candidate current : ModerationVerdict) : Bool :=
  keyGt (rankKey candidate) (rankKey current)

/-- `punishments.aggregator.PunishmentDecision` (without the derived
`action` property). -/
structure PunishmentDecision where
  verdict : ModerationVerdict
  conflicting : List ModerationVerdict
deriving DecidableEq, Repr

/-- The loop body of `PunishmentAggregator.decide` (`aggregator.py`,
lines 35-44): fold over the results, skipping absent or non-violated
verdicts, keeping the best verdict and pushing the loser of each
comparison onto the conflict list. -/
def decideLoop : List ModerationResult → Option ModerationVerdict →
    List ModerationVerdict → Option ModerationVerdict × List ModerationVerdict
  | [], best, conflicts => (best, conflicts)
  | r :: rest, best, conflicts =>
    match r.verdict with
    | Option.none => decideLoop rest best conflicts
    | Option.some v =>
      if v.violated = false then decideLoop rest best conflicts
      else
        match best with
        | Option.none => decideLoop rest (Option.some v) conflicts
        | Option.some b =>
          if is_better v b then decideLoop rest (Option.some v) (conflicts ++ [b])
          else decideLoop rest (Option.some b) (conflicts ++ [v])

/-- `PunishmentAggregator.decide` (`aggregator.py`, lines 31-57). -/
def PunishmentAggregator.decide (results : List ModerationResult) :
    Option PunishmentDecision :=
  match decideLoop results Option.none [] with
  | (Option.none, _) => Option.none
  | (Option.some best, conflicts) => Option.some ⟨best, conflicts⟩

/-- The violated verdicts carried by a list of results, in order: the
verdicts the aggregator's loop does not skip. -/
def violatedVerdicts (results : List ModerationResult) : List ModerationVerdict :=
  results.filterMap (fun r =>
    match r.verdict with
    | Option.some v => if v.violated then Option.some v else Option.none
    | Option.none => Option.none)

/-- The contents of an optional best verdict, as a list. -/
def optList : Option ModerationVerdict → List ModerationVerdict
  | Option.none => []
  | Option.some v => [v]

lemma keyLe_refl (a : Nat × Nat) : keyLe a a := by simp [keyLe]

lemma keyLe_trans {a b c : Nat × Nat} (h1 : keyLe a b) (h2 : keyLe b c) : keyLe a c := by
  simp only [keyLe] at *
  omega

lemma keyGt_false_le {a b : Nat × Nat} (h : keyGt a b = false) : keyLe a b := by
  simp only [keyGt, Bool.or_eq_false_iff, Bool.and_eq_false_iff,
    decide_eq_false_iff_not] at h
  simp only [keyLe]
  omega

lemma keyGt_true_le {a b : Nat × Nat} (h : keyGt a b = true) : keyLe b a := by
  simp only [keyGt, Bool.or_eq_true, Bool.and_eq_true, decide_eq_true_eq] at h
  simp only [keyLe]
  omega

lemma violatedVerdicts_cons (r : ModerationResult) (rest : List ModerationResult) :
    violatedVerdicts (r :: rest) =
      (match r.verdict with
        | Option.some v => if v.violated then v :: violatedVerdicts rest else violatedVerdicts rest
        | Option.none => violatedVerdicts rest) := by
  cases hv : r.verdict with
  | none => simp [violatedVerdicts, List.filterMap_cons, hv]
  | some v =>
    by_cases hviol : v.violated <;>
      simp [violatedVerdicts, List.filterMap_cons, hv, hviol]

lemma mem_violatedVerdicts {v : ModerationVerdict} {results : List ModerationResult}
    (h : v ∈ violatedVerdicts results) : v.violated = true := by
  simp only [violatedVerdicts, List.mem_filterMap] at h
  obtain ⟨r, _, hr⟩ := h
  cases hv : r.verdict with
  | none => simp [hv] at hr
  | some w =>
    by_cases hw : w.violated
    · simp [hv, hw] at hr
      subst hr; exact hw
    · simp [hv, hw] at hr

lemma decideLoop_fst_none_iff (results : List ModerationResult) :
    ∀ best conflicts, (decideLoop results best conflicts).1 = Option.none ↔
      (best = Option.none ∧ violatedVerdicts results = []) := by
  induction results with
  | nil => intro best conflicts; simp [decideLoop, violatedVerdicts]
  | cons r rest ih =>
    intro best conflicts
    rw [violatedVerdicts_cons]
    cases hv : r.verdict with
    | none => simp [decideLoop, hv, ih]
    | some v =>
      by_cases hviol : v.violated
      · cases best with
        | none =>
          simp [decideLoop, hv, hviol, ih]
        | some b =>
          by_cases hb : is_better v b <;>
            simp [decideLoop, hv, hviol, hb, ih]
      · simp [decideLoop, hv, hviol, ih]


lemma decideLoop_cons_none {r : ModerationResult} {rest : List ModerationResult}
    {best : Option ModerationVerdict} {conflicts : List ModerationVerdict}
    (hv : r.verdict = Option.none) :
    decideLoop (r :: rest) best conflicts = decideLoop rest best conflicts := by
  simp [decideLoop, hv]

lemma decideLoop_cons_clean {r : ModerationResult} {rest : List ModerationResult}
    {best : Option ModerationVerdict} {conflicts : List ModerationVerdict}
    {v : ModerationVerdict} (hv : r.verdict = Option.some v)
    (hviol : v.violated = false) :
    decideLoop (r :: rest) best conflicts = decideLoop rest best conflicts := by
  cases best <;> simp [decideLoop, hv, hviol]

lemma decideLoop_cons_first {r : ModerationResult} {rest : List ModerationResult}
    {conflicts : List ModerationVerdict} {v : ModerationVerdict}
    (hv : r.verdict = Option.some v) (hviol : v.violated = true) :
    decideLoop (r :: rest) Option.none conflicts =
      decideLoop rest (Option.some v) conflicts := by
  simp [decideLoop, hv, hviol]

lemma decideLoop_cons_better {r : ModerationResult} {rest : List ModerationResult}
    {conflicts : List ModerationVerdict} {v b : ModerationVerdict}
    (hv : r.verdict = Option.some v) (hviol : v.violated = true)
    (hb : is_better v b = true) :
    decideLoop (r :: rest) (Option.some b) conflicts =
      decideLoop rest (Option.some v) (conflicts ++ [b]) := by
  simp [decideLoop, hv, hviol, hb]

lemma decideLoop_cons_worse {r : ModerationResult} {rest : List ModerationResult}
    {conflicts : List ModerationVerdict} {v b : ModerationVerdict}
    (hv : r.verdict = Option.some v) (hviol : v.violated = true)
    (hb : is_better v b = false) :
    decideLoop (r :: rest) (Option.some b) conflicts =
      decideLoop rest (Option.some b) (conflicts ++ [v]) := by
  simp [decideLoop, hv, hviol, hb]

lemma decideLoop_perm (results : List ModerationResult) :
    ∀ best conflicts,
      List.Perm (optList (decideLoop results best conflicts).1 ++ (decideLoop results best conflicts).2)
        (optList best ++ conflicts ++ violatedVerdicts results) := by
  induction results with
  | nil => intro best conflicts; simp [decideLoop, violatedVerdicts]
  | cons r rest ih =>
    intro best conflicts
    rw [violatedVerdicts_cons]
    cases hv : r.verdict with
    | none => simpa [decideLoop_cons_none hv] using ih best conflicts
    | some v =>
      by_cases hviol : v.violated
      · simp only [hviol, if_pos rfl]
        cases best with
        | none =>
          rw [decideLoop_cons_first hv hviol]
          refine (ih (Option.some v) conflicts).trans ?_
          have hmid : List.Perm (v :: (conflicts ++ violatedVerdicts rest))
              (conflicts ++ v :: violatedVerdicts rest) := (List.perm_middle).symm
          simpa [optList, List.append_assoc] using hmid
        | some b =>
          by_cases hb : is_better v b
          · rw [decideLoop_cons_better hv hviol hb]
            refine (ih (Option.some v) (conflicts ++ [b])).trans ?_
            have h1 : List.Perm (conflicts ++ [b] ++ violatedVerdicts rest)
                (b :: (conflicts ++ violatedVerdicts rest)) := by
              rw [List.append_assoc]
              exact List.perm_middle
            have h2 : List.Perm (v :: (b :: (conflicts ++ violatedVerdicts rest)))
                (b :: (v :: (conflicts ++ violatedVerdicts rest))) :=
              List.Perm.swap b v _
            have h3 : List.Perm (v :: (conflicts ++ [b] ++ violatedVerdicts rest))
                (b :: (conflicts ++ v :: violatedVerdicts rest)) := by
              refine ((List.Perm.cons v h1).trans h2).trans ?_
              exact List.Perm.cons b (List.perm_middle).symm
            simpa [optList] using h3
          · have hb2 : is_better v b = false := by simpa using hb
            rw [decideLoop_cons_worse hv hviol hb2]
            refine (ih (Option.some b) (conflicts ++ [v])).trans ?_
            have h1 : List.Perm (conflicts ++ [v] ++ violatedVerdicts rest)
                (conflicts ++ v :: violatedVerdicts rest) := by
              rw [List.append_assoc]
              simp
            simp only [optList]
            exact List.Perm.cons b h1
      · have hviol2 : v.violated = false := by simpa using hviol
        simpa [decideLoop_cons_clean hv hviol2, hviol2] using ih best conflicts

lemma decideLoop_max (results : List ModerationResult) :
    ∀ best conflicts b2, (decideLoop results best conflicts).1 = Option.some b2 →
      (∀ w, best = Option.some w → keyLe (rankKey w) (rankKey b2)) ∧
      (∀ v ∈ violatedVerdicts results, keyLe (rankKey v) (rankKey b2)) := by
  induction results with
  | nil =>
    intro best conflicts b2 h
    simp only [decideLoop] at h
    refine ⟨?_, ?_⟩
    · intro w hw; rw [hw] at h; cases h; exact keyLe_refl _
    · intro v hv; simp [violatedVerdicts] at hv
  | cons r rest ih =>
    intro best conflicts b2 h
    rw [violatedVerdicts_cons]
    cases hv : r.verdict with
    | none =>
      rw [decideLoop_cons_none hv] at h
      simpa using ih best conflicts b2 h
    | some v =>
      by_cases hviol : v.violated
      · simp only [hviol, if_pos rfl]
        cases best with
        | none =>
          rw [decideLoop_cons_first hv hviol] at h
          have hrec := ih (Option.some v) conflicts b2 h
          refine ⟨?_, ?_⟩
          · intro w hw; cases hw
          · intro u hu
            rcases List.mem_cons.mp hu with hu | hu
            · subst hu; exact hrec.1 u rfl
            · exact hrec.2 u hu
        | some b =>
          by_cases hb : is_better v b
          · rw [decideLoop_cons_better hv hviol hb] at h
            have hrec := ih (Option.some v) (conflicts ++ [b]) b2 h
            have hvle : keyLe (rankKey v) (rankKey b2) := hrec.1 v rfl
            have hble : keyLe (rankKey b) (rankKey v) := keyGt_true_le hb
            refine ⟨?_, ?_⟩
            · intro w hw; cases hw; exact keyLe_trans hble hvle
            · intro u hu
              rcases List.mem_cons.mp hu with hu | hu
              · subst hu; exact hvle
              · exact hrec.2 u hu
          · have hb2 : is_better v b = false := by simpa using hb
            rw [decideLoop_cons_worse hv hviol hb2] at h
            have hrec := ih (Option.some b) (conflicts ++ [v]) b2 h
            have hble : keyLe (rankKey b) (rankKey b2) := hrec.1 b rfl
            have hvle : keyLe (rankKey v) (rankKey b) :=
              keyGt_false_le (by simpa [is_better] using hb2)
            refine ⟨?_, ?_⟩
            · intro w hw; cases hw; exact hble
            · intro u hu
              rcases List.mem_cons.mp hu with hu | hu
              · subst hu; exact keyLe_trans hvle hble
              · exact hrec.2 u hu
      · have hviol2 : v.violated = false := by simpa using hviol
        rw [decideLoop_cons_clean hv hviol2] at h
        simpa [hviol2] using ih best conflicts b2 h

/-- Claim C2: `PunishmentAggregator.decide` returns `None` exactly when
no result carries a violated verdict; otherwise its chosen verdict is a
violated verdict maximizing `(LAYER_RANK[layer], priority)` under
lexicographic comparison, the violated verdicts are precisely the chosen
one together with the `conflicting` list (a permutation, so every other
violated verdict appears in `conflicting`), and every verdict in
`conflicting` is violated. -/
theorem aggregator_decide_correct (results : List ModerationResult) :
    (PunishmentAggregator.decide results = Option.none ↔
      violatedVerdicts results = []) ∧
    (∀ d, PunishmentAggregator.decide results = Option.some d →
      d.verdict ∈ violatedVerdicts results ∧
      (∀ v ∈ violatedVerdicts results, keyLe (rankKey v) (rankKey d.verdict)) ∧
      List.Perm (violatedVerdicts results) (d.verdict :: d.conflicting) ∧
      ∀ v ∈ d.conflicting, v.violated = true) := by
  constructor
  · constructor
    · intro h
      rcases hout : decideLoop results Option.none [] with ⟨b, c⟩
      cases b with
      | none =>
        have := (decideLoop_fst_none_iff results Option.none []).mp (by rw [hout])
        exact this.2
      | some b => simp [PunishmentAggregator.decide, hout] at h
    · intro h
      rcases hout : decideLoop results Option.none [] with ⟨b, c⟩
      cases b with
      | none => simp [PunishmentAggregator.decide, hout]
      | some b =>
        exfalso
        have hperm := decideLoop_perm results Option.none []
        rw [hout, h] at hperm
        simp only [optList, List.nil_append, List.append_nil] at hperm
        have := hperm.length_eq
        simp at this
  · intro d hd
    rcases hout : decideLoop results Option.none [] with ⟨b, c⟩
    cases b with
    | none => simp [PunishmentAggregator.decide, hout] at hd
    | some b =>
      simp only [PunishmentAggregator.decide, hout] at hd
      cases hd
      have hperm := decideLoop_perm results Option.none []
      rw [hout] at hperm
      simp only [optList, List.nil_append] at hperm
      have hperm2 : List.Perm (violatedVerdicts results) (b :: c) := by
        simpa using hperm.symm
      have hmax := decideLoop_max results Option.none [] b (by rw [hout])
      refine ⟨?_, hmax.2, hperm2, ?_⟩
      · exact hperm2.symm.mem_iff.mp (by simp)
      · intro v hv
        exact mem_violatedVerdicts (hperm2.symm.mem_iff.mp (by simp [hv]))

/-- Concrete inputs for the C2 witness: a regex-layer violation and a
contextual-layer violation seen by the aggregator. -/
def c2regexResult : ModerationResult :=
  ⟨⟨⟨1, 2, 3, 0, Option.none, Option.none⟩, Option.none, Option.none, Option.none, []⟩,
    Option.some ⟨LayerType.regex, "rr", ViolationPriority.spam, ActionType.warn, "r", true⟩, []⟩

/-- Second concrete input for the C2 witness. -/
def c2gptResult : ModerationResult :=
  ⟨⟨⟨1, 2, 4, 0, Option.none, Option.none⟩, Option.none, Option.none, Option.none, []⟩,
    Option.some ⟨LayerType.chatgpt, "rc", ViolationPriority.other, ActionType.ban, "c", true⟩, []⟩

/-- Witness for C2: on the two concrete results the contextual verdict
wins and the regex verdict is the sole conflict. -/
theorem aggregator_decide_correct_witness :
    (PunishmentAggregator.decide ([] : List ModerationResult) = Option.none ↔
      violatedVerdicts [] = []) ∧
    ModerationVerdict.mk LayerType.chatgpt "rc" ViolationPriority.other ActionType.ban "c" true
      ∈ violatedVerdicts [c2regexResult, c2gptResult] ∧
    (∀ v ∈ violatedVerdicts [c2regexResult, c2gptResult],
      keyLe (rankKey v) (rankKey (ModerationVerdict.mk LayerType.chatgpt "rc"
        ViolationPriority.other ActionType.ban "c" true))) := by
  have h := (aggregator_decide_correct [c2regexResult, c2gptResult]).2
    ⟨⟨LayerType.chatgpt, "rc", ViolationPriority.other, ActionType.ban, "c", true⟩,
     [⟨LayerType.regex, "rr", ViolationPriority.spam, ActionType.warn, "r", true⟩]⟩
    (by decide)
  exact ⟨(aggregator_decide_correct []).1, h.1, h.2.1⟩

/-! ## Incident recording (`storage/sqlite.py`) -/

/-- One row of `moderation_incidents` as built by
`SQLiteStorage.record_batch_results` (`sqlite.py`, lines 152-186); the
timestamp and the JSON details payload are opaque and omitted. -/
structure IncidentEntry where
  rule_code : String
  layer : LayerType
  action : ActionType
  priority : Nat
  chat_id : Int
  user_id : Int
  message_id : Int
  reason : String
deriving DecidableEq, Repr

/-- `SQLiteStorage.record_batch_results`: results whose `verdict` is
`None` are skipped (`if not result.verdict: continue`); the rest become
incident rows. -/
def record_batch_results (results : List ModerationResult) : List IncidentEntry :=
  results.filterMap (fun r =>
    match r.verdict with
    | Option.none => Option.none
    | Option.some v =>
      Option.some ⟨v.rule_code, v.layer, v.action, v.priority.val,
        r.message.context.chat_id, r.message.context.user_id,
        r.message.context.message_id, v.reason⟩)

lemma process_message_all_clean (msg : MessageEnvelope) :
    ∀ enabled : List ModerationLayer,
      (∀ l ∈ enabled, noShortCircuit (l.eval msg)) →
      process_message enabled [] msg =
        { message := msg, verdict := Option.none,
          evaluated_layers := enabled.map (fun l => l.layer_type) } := by
  intro enabled
  induction enabled with
  | nil => intro _; rfl
  | cons l rest ih =>
    intro hall
    have hl := hall l (by simp)
    have hrest : ∀ x ∈ rest, noShortCircuit (x.eval msg) :=
      fun x hx => hall x (by simp [hx])
    cases hv : l.eval msg with
    | none => simp [process_message, hv, ih hrest]
    | some w =>
      have hw : w.short_circuit = false := hl w hv
      simp [process_message, hv, hw, ih hrest]

/-- Claim C10: if an enabled layer returns a verdict with
`violated = true` but `action = none`, the pipeline does not
short-circuit on it and discards it: provided no other enabled layer
short-circuits either, `process_message` evaluates every enabled layer
(including those after the violating one), returns `verdict = None`,
the aggregator produces no punishment decision from the result, and no
incident row is recorded for it. -/
theorem pipeline_action_none_discarded
    (layers pre post : List ModerationLayer) (lk : ModerationLayer)
    (disabled : List LayerType) (msg : MessageEnvelope) (v : ModerationVerdict)
    (hdecomp : enabledLayers layers disabled = pre ++ lk :: post)
    (hall : ∀ l ∈ enabledLayers layers disabled, noShortCircuit (l.eval msg))
    (_hk : lk.eval msg = Option.some v)
    (_hviol : v.violated = true) (_hact : v.action = ActionType.none) :
    process_message layers disabled msg =
      { message := msg, verdict := Option.none,
        evaluated_layers := pre.map (fun l => l.layer_type) ++ lk.layer_type ::
          post.map (fun l => l.layer_type) } ∧
    PunishmentAggregator.decide [process_message layers disabled msg] = Option.none ∧
    record_batch_results [process_message layers disabled msg] = [] := by
  have hres : process_message layers disabled msg =
      { message := msg, verdict := Option.none,
        evaluated_layers := pre.map (fun l => l.layer_type) ++ lk.layer_type ::
          post.map (fun l => l.layer_type) } := by
    rw [process_message_enabled, hdecomp,
      process_message_all_clean msg _ (by rw [← hdecomp]; exact hall)]
    simp
  refine ⟨hres, ?_, ?_⟩
  · rw [hres]; rfl
  · rw [hres]; rfl


/-- Concrete first layer for the C10 witness: reports a violation whose
action is `none`. -/
def c10layer1 : ModerationLayer :=
  ⟨LayerType.regex, 10, fun _ =>
    Option.some ⟨LayerType.regex, "r0", ViolationPriority.spam,
      ActionType.none, "flagged", true⟩⟩

/-- Concrete second layer for the C10 witness: finds nothing. -/
def c10layer2 : ModerationLayer := ⟨LayerType.omni, 20, fun _ => Option.none⟩

/-- Concrete envelope for the C10 witness. -/
def c10msg : MessageEnvelope :=
  ⟨⟨7, 8, 9, 0, Option.none, Option.none⟩, Option.some "txt",
    Option.none, Option.none, []⟩

/-- Witness for C10: on the concrete two-layer pipeline the violating
`action = none` verdict is discarded, the second layer is still
evaluated, and the aggregator returns no decision. -/
theorem pipeline_action_none_discarded_witness :
    process_message [c10layer1, c10layer2] [] c10msg =
      { message := c10msg, verdict := Option.none,
        evaluated_layers := [LayerType.regex, LayerType.omni] } ∧
    PunishmentAggregator.decide [process_message [c10layer1, c10layer2] [] c10msg] =
      Option.none := by
  have h := pipeline_action_none_discarded [c10layer1, c10layer2] [] [c10layer2]
    c10layer1 [] c10msg
    ⟨LayerType.regex, "r0", ViolationPriority.spam, ActionType.none, "flagged", true⟩
    rfl
    (by
      intro l hl
      have hl2 : l = c10layer1 ∨ l = c10layer2 := by
        simpa [enabledLayers, c10layer1, c10layer2] using hl
      rcases hl2 with h | h <;> subst h
      · intro w hw
        simp only [c10layer1] at hw
        cases hw
        rfl
      · intro w hw
        simp only [c10layer2] at hw
        exact Option.noConfusion hw)
    rfl rfl rfl
  exact ⟨h.1, h.2.1⟩

/-! ## Rule registry (`rules/registry.py`)

The Python registry is a dict of dicts of lists,
`layer -> chat_id -> [rule]`, with append-in-insertion-order buckets; it
is modelled as the bucket function itself. -/

/-- The in-memory bucket structure of `RuleRegistry`
(`rules/registry.py`): `self._rules[layer][chat_id]` as a function. -/
structure RuleRegistry where
  rules : LayerType → Option Int → List ModerationRule

/-- A freshly constructed registry: every bucket empty (`defaultdict`). -/
def RuleRegistry.empty : RuleRegistry := ⟨fun _ _ => []⟩

/-- `RuleRegistry.add_rule`: append the rule to the
`(rule.layer, rule.chat_id)` bucket. -/
def RuleRegistry.add_rule (reg : RuleRegistry) (r : ModerationRule) : RuleRegistry :=
  ⟨fun L c =>
    if r.layer = L ∧ r.chat_id = c then reg.rules L c ++ [r] else reg.rules L c⟩

/-- `RuleRegistry.remove_rule`: filter the rule id out of every bucket
(the Python code also pops buckets that become empty, which is
observationally equal: a missing bucket reads as the empty list). -/
def RuleRegistry.remove_rule (reg : RuleRegistry) (rid : String) : RuleRegistry :=
  ⟨fun L c => (reg.rules L c).filter (fun r => decide (r.rule_id ≠ rid))⟩

/-- `RuleRegistry.seed`: clear everything, then insert the given rules in
iteration order. -/
def RuleRegistry.seed (rs : List ModerationRule) : RuleRegistry :=
  rs.foldl RuleRegistry.add_rule RuleRegistry.empty

/-- `RuleRegistry.get_rules_for_layer` (`registry.py`, lines 57-63):
global bucket first, then (when a chat id is given) the chat bucket. -/
def RuleRegistry.get_rules_for_layer (reg : RuleRegistry) (L : LayerType)
    (chatId : Option Int) : List ModerationRule :=
  reg.rules L Option.none ++
    (match chatId with
     | Option.none => []
     | Option.some c => reg.rules L (Option.some c))

/-- The registry mutations reachable from client code. -/
inductive RegistryOp where
  | seedOp (rs : List ModerationRule)
  | addOp (r : ModerationRule)
  | removeOp (rid : String)

/-- One registry mutation step. -/
def applyRegistryOp (reg : RuleRegistry) : RegistryOp → RuleRegistry
  | .seedOp rs => RuleRegistry.seed rs
  | .addOp r => reg.add_rule r
  | .removeOp rid => reg.remove_rule rid

/-- A registry state reached by a sequence of mutations. -/
def runRegistryOps (ops : List RegistryOp) : RuleRegistry :=
  ops.foldl applyRegistryOp RuleRegistry.empty

/-- Membership test for the `(L, c)` bucket. -/
def bucketPred (L : LayerType) (c : Option Int) (r : ModerationRule) : Bool :=
  decide (r.layer = L ∧ r.chat_id = c)

/-- The logical insertion sequence tracked alongside the mutations. -/
def stepInsertions (cur : List ModerationRule) : RegistryOp → List ModerationRule
  | .seedOp rs => rs
  | .addOp r => cur ++ [r]
  | .removeOp rid => cur.filter (fun r => decide (r.rule_id ≠ rid))

/-- The insertion sequence of a whole mutation history. -/
def insertionList (ops : List RegistryOp) : List ModerationRule :=
  ops.foldl stepInsertions []

lemma foldl_add_rules (rs : List ModerationRule) :
    ∀ (reg : RuleRegistry) (L : LayerType) (c : Option Int),
      (rs.foldl RuleRegistry.add_rule reg).rules L c =
        reg.rules L c ++ rs.filter (bucketPred L c) := by
  induction rs with
  | nil => intro reg L c; simp
  | cons r rest ih =>
    intro reg L c
    rw [List.foldl_cons, ih]
    by_cases h : r.layer = L ∧ r.chat_id = c
    · simp [RuleRegistry.add_rule, bucketPred, h, List.filter_cons]
    · simp [RuleRegistry.add_rule, bucketPred, h, List.filter_cons]

lemma seed_rules (rs : List ModerationRule) (L : LayerType) (c : Option Int) :
    (RuleRegistry.seed rs).rules L c = rs.filter (bucketPred L c) := by
  rw [RuleRegistry.seed, foldl_add_rules]
  rfl

lemma runRegistryOps_rules (ops : List RegistryOp) :
    ∀ (reg : RuleRegistry) (cur : List ModerationRule),
      (∀ L c, reg.rules L c = cur.filter (bucketPred L c)) →
      ∀ L c, (ops.foldl applyRegistryOp reg).rules L c =
        (ops.foldl stepInsertions cur).filter (bucketPred L c) := by
  induction ops with
  | nil => intro reg cur h L c; simpa using h L c
  | cons op rest ih =>
    intro reg cur h L c
    rw [List.foldl_cons, List.foldl_cons]
    cases op with
    | seedOp rs =>
      exact ih (RuleRegistry.seed rs) rs (fun L c => seed_rules rs L c) L c
    | addOp r =>
      refine ih (reg.add_rule r) (cur ++ [r]) ?_ L c
      intro L c
      by_cases hb : r.layer = L ∧ r.chat_id = c
      · simp [RuleRegistry.add_rule, hb, h L c, List.filter_append, bucketPred]
      · simp [RuleRegistry.add_rule, hb, h L c, List.filter_append, bucketPred]
    | removeOp rid =>
      refine ih (reg.remove_rule rid) (cur.filter (fun r => decide (r.rule_id ≠ rid))) ?_ L c
      intro L c
      show ((reg.rules L c).filter (fun r => decide (r.rule_id ≠ rid))) = _
      rw [h L c]
      simp only [List.filter_filter]
      exact List.filter_congr (fun r _ => by rw [Bool.and_comm])

lemma registry_state_rules (ops : List RegistryOp) (L : LayerType) (c : Option Int) :
    (runRegistryOps ops).rules L c = (insertionList ops).filter (bucketPred L c) :=
  runRegistryOps_rules ops RuleRegistry.empty []
    (fun _ _ => rfl) L c

/-- Claim C8: in every reachable registry state,
`get_rules_for_layer(L, chat_id=c)` is the global bucket for `L`
followed by the chat-`c` bucket for `L`, each in insertion order (the
insertion sequence filtered to the bucket); with `chat_id=None` it is
the global bucket only; and a repeated read without intervening
mutation returns the same list (reads are pure in the embedding). -/
theorem registry_get_rules_scoped (ops : List RegistryOp) (L : LayerType) (c : Int) :
    (runRegistryOps ops).get_rules_for_layer L (Option.some c) =
      (insertionList ops).filter (bucketPred L Option.none) ++
        (insertionList ops).filter (bucketPred L (Option.some c)) ∧
    (runRegistryOps ops).get_rules_for_layer L Option.none =
      (insertionList ops).filter (bucketPred L Option.none) ∧
    ∀ chatId, (runRegistryOps ops).get_rules_for_layer L chatId =
      (runRegistryOps ops).get_rules_for_layer L chatId := by
  refine ⟨?_, ?_, fun _ => rfl⟩
  · rw [RuleRegistry.get_rules_for_layer, registry_state_rules, registry_state_rules]
  · rw [RuleRegistry.get_rules_for_layer, registry_state_rules]
    simp

/-! ## Rule service (`rules/service.py`)

`add_rule` is modelled as a pure function of the caller's arguments, the
synthesizer's response (an external input, consulted exactly when one of
layer / rule_type / pattern / category is absent) and the fresh UUID. -/

/-- `OMNI_VALID_CATEGORIES` (`rules/service.py`, lines 17-31). -/
def OMNI_VALID_CATEGORIES : List String :=
  ["hate", "hate/threatening", "harassment", "harassment/threatening",
   "self-harm", "self-harm/intent", "self-harm/instructions",
   "sexual", "sexual/minors", "violence", "violence/graphic",
   "illicit", "illicit/violent"]

/-- `adapters.openai.RuleSynthesisResult`: the parsed synthesizer
response (`openai.py`, lines 187-193). -/
structure RuleSynthesisResult where
  rule_type : String
  layer : String
  category : String
  regex : Option String
  priority : Int
deriving DecidableEq, Repr

/-- `RuleService._resolve_layer` (`service.py`, lines 179-188):
`LayerType(value)` succeeds on the three member strings; the fallback
branch maps anything else to `CHATGPT` (its `omni`/`regex` arms are
unreachable because the enum constructor already accepts them). -/
def resolve_layer (value : String) : LayerType :=
  if value = "regex" then LayerType.regex
  else if value = "omni" then LayerType.omni
  else LayerType.chatgpt

/-- `RuleService._resolve_type` (`service.py`, lines 190-195). -/
def resolve_type (value : String) : RuleType :=
  if value = "regex" then RuleType.regex
  else if value = "semantic" then RuleType.semantic
  else if value = "contextual" then RuleType.contextual
  else RuleType.semantic

/-- `RuleService._resolve_priority` (`service.py`, lines 197-209): clamp
to [0, 100], then the first bucket whose threshold is not above the
clamped value (the trailing `return OTHER` is unreachable since the
OTHER threshold is 0). -/
def resolve_priority (value : Int) : ViolationPriority :=
  let bounded := max 0 (min 100 value)
  if bounded ≥ 90 then ViolationPriority.threats
  else if bounded ≥ 70 then ViolationPriority.nsfw
  else if bounded ≥ 60 then ViolationPriority.hate
  else if bounded ≥ 40 then ViolationPriority.spam
  else ViolationPriority.other

/-- Python falsiness of an optional string (`not resolved_pattern`):
true on `None` and on the empty string. -/
def pyFalsyStr (o : Option String) : Bool :=
  match o with
  | Option.none => true
  | Option.some s => s = ""

/-- The category guard of the omni branch of `add_rule`
(`service.py`, line 112): `resolved_category` is truthy and a member of
`OMNI_VALID_CATEGORIES`. -/
def omniCategoryValid (category : Option String) : Bool :=
  match category with
  | Option.none => false
  | Option.some c => !(c = "") && decide (c ∈ OMNI_VALID_CATEGORIES)

/-- The validation / repair block of `RuleService.add_rule`
(`service.py`, lines 98-131), producing the final
(layer, rule_type, pattern) triple:
omni/chatgpt drop any pattern; an omni rule whose category fails
`omniCategoryValid` is demoted to chatgpt/contextual; a regex rule with
a falsy pattern is demoted to chatgpt/contextual (keeping its pattern
field unchanged). -/
def validateRuleFields (resolved_layer : LayerType) (resolved_type : RuleType)
    (resolved_pattern : Option String) (resolved_category : Option String) :
    LayerType × RuleType × Option String :=
  if resolved_layer = LayerType.omni ∨ resolved_layer = LayerType.chatgpt then
    if resolved_layer = LayerType.omni && !(omniCategoryValid resolved_category) then
      (LayerType.chatgpt, RuleType.contextual, Option.none)
    else
      (resolved_layer, resolved_type, Option.none)
  else
    if pyFalsyStr resolved_pattern then
      (LayerType.chatgpt, RuleType.contextual, resolved_pattern)
    else
      (resolved_layer, resolved_type, resolved_pattern)

/-- `RuleService.add_rule` (`service.py`, lines 51-166) as a function of
the caller input, the synthesizer response `cls` (consulted exactly when
one of layer / rule_type / pattern / category is absent) and the fresh
rule id `fresh_id` standing for `uuid4()`. -/
def RuleService.add_rule (description : String) (desired_action : ActionType)
    (source : RuleSource) (chat_id : Option Int)
    (action_duration_seconds : Option Int)
    (layer : Option LayerType) (rule_type : Option RuleType)
    (pattern : Option String) (category : Option String)
    (cls : RuleSynthesisResult) (fresh_id : String) : ModerationRule :=
  let classification : Option RuleSynthesisResult :=
    if layer.isNone || rule_type.isNone || pattern.isNone || category.isNone then
      Option.some cls
    else Option.none
  let resolved_layer : LayerType :=
    match layer with
    | Option.some l => l
    | Option.none =>
      resolve_layer (match classification with
        | Option.some c => c.layer
        | Option.none => "chatgpt")
  let resolved_type : RuleType :=
    match rule_type with
    | Option.some t => t
    | Option.none =>
      resolve_type (match classification with
        | Option.some c => c.rule_type
        | Option.none => "contextual")
  let resolved_pattern : Option String :=
    match pattern with
    | Option.some p => Option.some p
    | Option.none =>
      match classification with
      | Option.some c => c.regex
      | Option.none => Option.none
  let resolved_category : Option String :=
    match category with
    | Option.some c => Option.some c
    | Option.none =>
      match classification with
      | Option.some c => Option.some c.category
      | Option.none => Option.none
  let repaired := validateRuleFields resolved_layer resolved_type resolved_pattern resolved_category
  { rule_id := fresh_id
    description := description
    action := desired_action
    source := source
    layer := repaired.1
    rule_type := repaired.2.1
    chat_id := chat_id
    pattern := repaired.2.2
    category := resolved_category
    priority := resolve_priority (match classification with
      | Option.some c => c.priority
      | Option.none => 10)
    action_duration_seconds := action_duration_seconds
    aliases := [] }

/-- `RuleService.list_rules` (`service.py`, lines 173-177): with no chat
id the stored rules are returned unfiltered; with a chat id, the rules
whose `chat_id` is `None` or equal to it. -/
def RuleService.list_rules (rules : List ModerationRule) (chatId : Option Int) :
    List ModerationRule :=
  match chatId with
  | Option.none => rules
  | Option.some c =>
    rules.filter (fun r => decide (r.chat_id = Option.none ∨ r.chat_id = Option.some c))

/-- The per-layer field invariant of a persisted rule (C3, amended): an
omni rule carries a catalog category and no pattern; a chatgpt rule
carries no pattern or an empty one; a regex rule carries a non-empty
pattern. -/
def layerFieldInvariant (r : ModerationRule) : Prop :=
  (r.layer = LayerType.omni →
    (∃ s, r.category = Option.some s ∧ s ∈ OMNI_VALID_CATEGORIES) ∧
    r.pattern = Option.none) ∧
  (r.layer = LayerType.chatgpt →
    r.pattern = Option.none ∨ r.pattern = Option.some "") ∧
  (r.layer = LayerType.regex → ∃ s, r.pattern = Option.some s ∧ s ≠ "")

lemma validateRuleFields_spec (l : LayerType) (t : RuleType) (p c : Option String) :
    ((validateRuleFields l t p c).1 = LayerType.omni →
      omniCategoryValid c = true ∧ (validateRuleFields l t p c).2.2 = Option.none) ∧
    ((validateRuleFields l t p c).1 = LayerType.chatgpt →
      (validateRuleFields l t p c).2.2 = Option.none ∨
      (validateRuleFields l t p c).2.2 = Option.some "") ∧
    ((validateRuleFields l t p c).1 = LayerType.regex →
      pyFalsyStr (validateRuleFields l t p c).2.2 = false) := by
  cases l with
  | omni =>
    by_cases hc : omniCategoryValid c
    · simp [validateRuleFields, hc]
    · simp [validateRuleFields, hc]
  | chatgpt => simp [validateRuleFields]
  | regex =>
    by_cases hp : pyFalsyStr p
    · refine ⟨?_, ?_, ?_⟩ <;> intro h <;> simp [validateRuleFields, hp] at h ⊢
      cases hpv : p with
      | none => simp
      | some s =>
        right
        simp [pyFalsyStr, hpv] at hp
        simp [hp]
    · simp [validateRuleFields, hp]

lemma omniCategoryValid_exists {c : Option String} (h : omniCategoryValid c = true) :
    ∃ s, c = Option.some s ∧ s ∈ OMNI_VALID_CATEGORIES := by
  cases c with
  | none => simp [omniCategoryValid] at h
  | some s =>
    simp only [omniCategoryValid, Bool.and_eq_true, decide_eq_true_eq] at h
    exact ⟨s, rfl, h.2⟩

lemma pyFalsyStr_false_exists {p : Option String} (h : pyFalsyStr p = false) :
    ∃ s, p = Option.some s ∧ s ≠ "" := by
  cases p with
  | none => simp [pyFalsyStr] at h
  | some s =>
    refine ⟨s, rfl, ?_⟩
    simpa [pyFalsyStr] using h

/-- Claim C3 (amended): every rule produced by `add_rule` — for any
caller overrides and any synthesizer response — satisfies the per-layer
field invariant: omni implies catalog category and null pattern;
chatgpt implies null **or empty** pattern (a regex candidate with an
empty-string pattern is demoted to chatgpt and keeps the empty string);
regex implies a non-empty pattern. -/
theorem add_rule_layer_invariant (description : String) (desired_action : ActionType)
    (source : RuleSource) (chat_id : Option Int)
    (action_duration_seconds : Option Int)
    (layer : Option LayerType) (rule_type : Option RuleType)
    (pattern : Option String) (category : Option String)
    (cls : RuleSynthesisResult) (fresh_id : String) :
    layerFieldInvariant (RuleService.add_rule description desired_action source chat_id
      action_duration_seconds layer rule_type pattern category cls fresh_id) := by
  unfold RuleService.add_rule layerFieldInvariant
  refine ⟨?_, ?_, ?_⟩ <;> intro h <;>
    simp only at h ⊢
  · rcases (validateRuleFields_spec _ _ _ _).1 h with ⟨hc, hp⟩
    exact ⟨omniCategoryValid_exists hc, hp⟩
  · exact (validateRuleFields_spec _ _ _ _).2.1 h
  · exact pyFalsyStr_false_exists ((validateRuleFields_spec _ _ _ _).2.2 h)

/-- Counterexample for C3 as stated: the caller supplies a regex rule
with an empty-string pattern; `add_rule` demotes it to the chatgpt
(contextual) layer but persists `pattern = ""`, which is not null. -/
theorem add_rule_empty_pattern_counterexample :
    (RuleService.add_rule "d" ActionType.delete RuleSource.admin Option.none Option.none
        (Option.some LayerType.regex) (Option.some RuleType.regex) (Option.some "")
        (Option.some "spam") ⟨"contextual", "chatgpt", "other", Option.none, 10⟩
        "id1").layer = LayerType.chatgpt ∧
    (RuleService.add_rule "d" ActionType.delete RuleSource.admin Option.none Option.none
        (Option.some LayerType.regex) (Option.some RuleType.regex) (Option.some "")
        (Option.some "spam") ⟨"contextual", "chatgpt", "other", Option.none, 10⟩
        "id1").pattern = Option.some "" := by
  constructor <;> rfl

/-- A rule's (layer, pattern, category) fields in legal form for its
layer (spec data-model invariants): regex requires a non-empty pattern;
omni requires a null pattern and a catalog category; chatgpt requires a
null pattern. -/
def legalRuleFields (l : LayerType) (p : Option String) (c : Option String) : Prop :=
  match l with
  | LayerType.regex => ∃ s, p = Option.some s ∧ s ≠ ""
  | LayerType.omni =>
    p = Option.none ∧ ∃ s, c = Option.some s ∧ s ≠ "" ∧ s ∈ OMNI_VALID_CATEGORIES
  | LayerType.chatgpt => p = Option.none

/-- Claim C5 (amended): feeding a rule already in legal form back
through `add_rule` (its layer, rule_type, pattern and category passed as
the caller overrides, its action as `desired_action`) reproduces the
rule's layer, rule_type, pattern and action for every synthesizer
response, and its category whenever the rule carries one; the priority
bucket, however, is recomputed from the synthesizer's priority (or from
the default 10 when no synthesis happens) and is not preserved. -/
theorem add_rule_preserves_legal_fields (description : String)
    (desired_action : ActionType) (source : RuleSource) (chat_id : Option Int)
    (action_duration_seconds : Option Int) (l : LayerType) (t : RuleType)
    (p c : Option String) (cls : RuleSynthesisResult) (fresh_id : String)
    (hlegal : legalRuleFields l p c) :
    (RuleService.add_rule description desired_action source chat_id
      action_duration_seconds (Option.some l) (Option.some t) p c cls fresh_id).layer = l ∧
    (RuleService.add_rule description desired_action source chat_id
      action_duration_seconds (Option.some l) (Option.some t) p c cls fresh_id).rule_type = t ∧
    (RuleService.add_rule description desired_action source chat_id
      action_duration_seconds (Option.some l) (Option.some t) p c cls fresh_id).pattern = p ∧
    (RuleService.add_rule description desired_action source chat_id
      action_duration_seconds (Option.some l) (Option.some t) p c cls fresh_id).action =
      desired_action ∧
    (∀ s, c = Option.some s →
      (RuleService.add_rule description desired_action source chat_id
        action_duration_seconds (Option.some l) (Option.some t) p c cls fresh_id).category =
        Option.some s) := by
  cases l with
  | regex =>
    obtain ⟨s, hp, hs⟩ := hlegal
    subst hp
    have hfalsy : pyFalsyStr (Option.some s) = false := by simpa [pyFalsyStr] using hs
    refine ⟨?_, ?_, ?_, ?_, ?_⟩ <;>
      simp [RuleService.add_rule, validateRuleFields, hfalsy]
    intro u hu
    cases c with
    | none => cases hu
    | some w => cases hu; rfl
  | omni =>
    obtain ⟨hp, s, hc, hs, hmem⟩ := hlegal
    subst hp hc
    have hvalid : omniCategoryValid (Option.some s) = true := by
      simp [omniCategoryValid, hs, hmem]
    refine ⟨?_, ?_, ?_, ?_, ?_⟩ <;>
      simp [RuleService.add_rule, validateRuleFields, hvalid]
  | chatgpt =>
    subst hlegal
    refine ⟨?_, ?_, ?_, ?_, ?_⟩ <;>
      simp [RuleService.add_rule, validateRuleFields]
    intro u hu
    cases c with
    | none => cases hu
    | some w => cases hu; rfl

/-- Witness for C5 (amended) on a concrete legal regex rule. -/
theorem add_rule_preserves_legal_fields_witness :
    (RuleService.add_rule "block abc" ActionType.delete RuleSource.admin Option.none
      Option.none (Option.some LayerType.regex) (Option.some RuleType.regex)
      (Option.some "abc") (Option.some "x")
      ⟨"regex", "regex", "x", Option.some "abc", 95⟩ "id-w5").layer = LayerType.regex ∧
    (RuleService.add_rule "block abc" ActionType.delete RuleSource.admin Option.none
      Option.none (Option.some LayerType.regex) (Option.some RuleType.regex)
      (Option.some "abc") (Option.some "x")
      ⟨"regex", "regex", "x", Option.some "abc", 95⟩ "id-w5").pattern = Option.some "abc" ∧
    (RuleService.add_rule "block abc" ActionType.delete RuleSource.admin Option.none
      Option.none (Option.some LayerType.regex) (Option.some RuleType.regex)
      (Option.some "abc") (Option.some "x")
      ⟨"regex", "regex", "x", Option.some "abc", 95⟩ "id-w5").category = Option.some "x" := by
  have h := add_rule_preserves_legal_fields "block abc" ActionType.delete RuleSource.admin
    Option.none Option.none LayerType.regex RuleType.regex
    (Option.some "abc") (Option.some "x")
    ⟨"regex", "regex", "x", Option.some "abc", 95⟩ "id-w5"
    ⟨"abc", rfl, by decide⟩
  exact ⟨h.1, h.2.2.1, h.2.2.2.2 "x" rfl⟩

/-- Counterexample for C5 as stated: a legal regex rule (non-empty
pattern, no category, priority bucket THREATS) is fed back through
`add_rule`. With all four structured fields supplied no synthesis
happens and the persisted priority falls back to the OTHER bucket, so
the priority bucket is not preserved; and when the same rule is fed back
with its (legal) null category, synthesis is consulted and the persisted
category becomes the synthesizer's, so the category is not preserved
either. -/
theorem add_rule_not_field_idempotent_counterexample :
    (RuleService.add_rule "d" ActionType.delete RuleSource.admin Option.none Option.none
        (Option.some LayerType.regex) (Option.some RuleType.regex) (Option.some "abc")
        (Option.some "x") ⟨"regex", "regex", "x", Option.some "abc", 95⟩ "id2").priority =
      ViolationPriority.other ∧
    ViolationPriority.other ≠ ViolationPriority.threats ∧
    (RuleService.add_rule "d" ActionType.delete RuleSource.admin Option.none Option.none
        (Option.some LayerType.regex) (Option.some RuleType.regex) (Option.some "abc")
        Option.none ⟨"regex", "regex", "other", Option.some "abc", 10⟩ "id3").category =
      Option.some "other" := by
  refine ⟨rfl, by decide, rfl⟩

/-- Concrete chat-scoped rule for the C6 counterexample. -/
def c6chatRule : ModerationRule :=
  { rule_id := "r-chat", description := "chat rule", action := ActionType.warn,
    source := RuleSource.admin, layer := LayerType.regex, rule_type := RuleType.regex,
    chat_id := Option.some 5, pattern := Option.some "x", category := Option.none,
    priority := ViolationPriority.other, action_duration_seconds := Option.none,
    aliases := [] }

/-- Counterexample for C6 as stated: with a single stored chat-scoped
rule, `list_rules(chat_id=None)` returns that rule, while the set of
global rules is empty — the null-chat-id call does not return "exactly
the global rules". -/
theorem list_rules_null_counterexample :
    RuleService.list_rules [c6chatRule] Option.none = [c6chatRule] ∧
    List.filter (fun r => decide (r.chat_id = Option.none)) [c6chatRule] = [] ∧
    RuleService.list_rules [c6chatRule] Option.none ≠
      List.filter (fun r => decide (r.chat_id = Option.none)) [c6chatRule] := by
  refine ⟨rfl, by decide, by decide⟩

/-- Claim C6 (amended): `list_rules` with `chat_id=None` returns **all**
stored rules (global and chat-scoped alike); with a chat id `c` it
returns exactly the stored rules whose `chat_id` is null or `c`, in
storage order (a sublist of the stored list). -/
theorem list_rules_scoping (rules : List ModerationRule) (c : Int) :
    RuleService.list_rules rules Option.none = rules ∧
    (∀ r, r ∈ RuleService.list_rules rules (Option.some c) ↔
      r ∈ rules ∧ (r.chat_id = Option.none ∨ r.chat_id = Option.some c)) ∧
    List.Sublist (RuleService.list_rules rules (Option.some c)) rules := by
  refine ⟨rfl, ?_, ?_⟩
  · intro r
    simp [RuleService.list_rules, List.mem_filter]
  · exact List.filter_sublist rules

/-! ## Batcher (`batching/batcher.py`)

The pending buffer and the queue of emitted batches form the state; the
delay timer is an external event (a `timer` flush operation), as is the
`stop` flush. -/

/-- The observable state of a `MessageBatcher`: the pending buffer and
the batches put on the queue so far, each with its flush reason. -/
structure BatcherState where
  pending : List MessageEnvelope
  emitted : List (List MessageEnvelope × String)
deriving DecidableEq, Repr

/-- A freshly constructed batcher. -/
def BatcherState.empty : BatcherState := ⟨[], []⟩

/-- `MessageBatcher._flush` (`batcher.py`, lines 102-115): no-op on an
empty buffer, otherwise queue the pending items as one batch and clear
the buffer. -/
def MessageBatcher.flush (reason : String) (s : BatcherState) : BatcherState :=
  if s.pending = [] then s
  else { pending := [], emitted := s.emitted ++ [(s.pending, reason)] }

/-- `MessageBatcher.submit` (`batcher.py`, lines 75-87): append to the
pending buffer; flush with reason `size` when the buffer reaches
`max_batch_size` (the timer arming on the empty-to-one transition is an
external event not modelled here). -/
def MessageBatcher.submit (B : Nat) (s : BatcherState) (m : MessageEnvelope) :
    BatcherState :=
  let p := s.pending ++ [m]
  if B ≤ p.length then MessageBatcher.flush "size" { pending := p, emitted := s.emitted }
  else { pending := p, emitted := s.emitted }

/-- A stream of submissions with timer flushes ignored. -/
def submitAll (B : Nat) (s : BatcherState) (ms : List MessageEnvelope) : BatcherState :=
  ms.foldl (MessageBatcher.submit B) s

/-- The batcher events: a submission, a timer flush, or the stop flush. -/
inductive BatcherOp where
  | sub (m : MessageEnvelope)
  | timerFlush
  | stopFlush

/-- One batcher event step. -/
def applyBatcherOp (B : Nat) (s : BatcherState) : BatcherOp → BatcherState
  | .sub m => MessageBatcher.submit B s m
  | .timerFlush => MessageBatcher.flush "timer" s
  | .stopFlush => MessageBatcher.flush "stop" s

/-- The batcher state after a sequence of events. -/
def runBatcherOps (B : Nat) (ops : List BatcherOp) : BatcherState :=
  ops.foldl (applyBatcherOp B) BatcherState.empty

/-- Invariant of the pure-size submission stream: emitted batches
concatenated with the pending buffer reproduce the submissions; the
buffer stays below `B`; counting; every emitted batch is a full `size`
batch. -/
def sizeInv (B : Nat) (consumed : List MessageEnvelope) (s : BatcherState) : Prop :=
  (s.emitted.map Prod.fst).flatten ++ s.pending = consumed ∧
  s.pending.length < B ∧
  s.emitted.length * B + s.pending.length = consumed.length ∧
  ∀ b ∈ s.emitted, b.1.length = B ∧ b.2 = "size"

lemma submit_preserves_sizeInv {B : Nat} (hB : 0 < B)
    {consumed : List MessageEnvelope} {s : BatcherState} (m : MessageEnvelope)
    (h : sizeInv B consumed s) :
    sizeInv B (consumed ++ [m]) (MessageBatcher.submit B s m) := by
  obtain ⟨hjoin, hlt, hcount, hbatch⟩ := h
  by_cases hfull : B ≤ (s.pending ++ [m]).length
  · have hlen : (s.pending ++ [m]).length = B := by
      simp at hfull ⊢
      omega
    have hne : s.pending ++ [m] ≠ [] := by simp
    refine ⟨?_, ?_, ?_, ?_⟩ <;>
      simp only [MessageBatcher.submit, if_pos hfull, MessageBatcher.flush, if_neg hne]
    · simp [← hjoin]
    · exact hB
    · simp only [List.length_append, List.length_cons, List.length_nil, List.length_map]
      have hlen2 : s.pending.length + 1 = B := by simpa using hlen
      have hexp : (s.emitted.length + (0 + 1)) * B = s.emitted.length * B + B := by ring
      omega
    · intro b hb
      rcases List.mem_append.mp hb with hb | hb
      · exact hbatch b hb
      · simp at hb
        subst hb
        exact ⟨hlen, rfl⟩
  · refine ⟨?_, ?_, ?_, ?_⟩ <;>
      simp only [MessageBatcher.submit, if_neg hfull]
    · simp [← hjoin]
    · simp at hfull ⊢
      omega
    · simp at hcount ⊢
      omega
    · exact hbatch

lemma submitAll_sizeInv {B : Nat} (hB : 0 < B) (ms : List MessageEnvelope) :
    ∀ (consumed : List MessageEnvelope) (s : BatcherState),
      sizeInv B consumed s → sizeInv B (consumed ++ ms) (submitAll B s ms) := by
  induction ms with
  | nil => intro consumed s h; simpa [submitAll] using h
  | cons m rest ih =>
    intro consumed s h
    have h2 := submit_preserves_sizeInv hB m h
    have h3 := ih (consumed ++ [m]) (MessageBatcher.submit B s m) h2
    simpa [submitAll] using h3

/-- Counterexample for C4 as stated: three submissions with
`max_batch_size = 2` produce one size flush, not `⌈3/2⌉ = 2`, and the
concatenation of the emitted batches misses the third submission
(which stays in the pending buffer). -/
theorem batcher_ceil_counterexample :
    (submitAll 2 BatcherState.empty
      [⟨⟨0, 0, 1, 0, Option.none, Option.none⟩, Option.none, Option.none, Option.none, []⟩,
       ⟨⟨0, 0, 2, 0, Option.none, Option.none⟩, Option.none, Option.none, Option.none, []⟩,
       ⟨⟨0, 0, 3, 0, Option.none, Option.none⟩, Option.none, Option.none, Option.none, []⟩]).emitted.length = 1 ∧
    (3 + 2 - 1) / 2 = 2 ∧ (1 : Nat) ≠ 2 ∧
    (submitAll 2 BatcherState.empty
      [⟨⟨0, 0, 1, 0, Option.none, Option.none⟩, Option.none, Option.none, Option.none, []⟩,
       ⟨⟨0, 0, 2, 0, Option.none, Option.none⟩, Option.none, Option.none, Option.none, []⟩,
       ⟨⟨0, 0, 3, 0, Option.none, Option.none⟩, Option.none, Option.none, Option.none, []⟩]).pending =
      [⟨⟨0, 0, 3, 0, Option.none, Option.none⟩, Option.none, Option.none, Option.none, []⟩] := by
  refine ⟨rfl, rfl, by decide, rfl⟩

/-- Claim C4 (amended): for a stream of `N` submissions with
`max_batch_size = B > 0` and timer flushes ignored, the batcher emits
exactly `⌊N/B⌋` flushes, all with reason `size` and exactly `B` items;
concatenating the emitted batches and appending the pending remainder
(of size `N mod B`) reproduces the submission order.  Moreover, under
arbitrary interleavings of submissions, timer flushes and the stop
flush, every emitted batch is non-empty. -/
theorem batcher_size_flushes (B : Nat) (ms : List MessageEnvelope) (hB : 0 < B) :
    (submitAll B BatcherState.empty ms).emitted.length = ms.length / B ∧
    (∀ b ∈ (submitAll B BatcherState.empty ms).emitted, b.1.length = B ∧ b.2 = "size") ∧
    ((submitAll B BatcherState.empty ms).emitted.map Prod.fst).flatten ++
      (submitAll B BatcherState.empty ms).pending = ms ∧
    (submitAll B BatcherState.empty ms).pending.length = ms.length % B ∧
    ∀ (ops : List BatcherOp), ∀ b ∈ (runBatcherOps B ops).emitted, b.1 ≠ [] := by
  have hinv : sizeInv B ms (submitAll B BatcherState.empty ms) := by
    have := submitAll_sizeInv hB ms [] BatcherState.empty
      ⟨rfl, hB, by simp [BatcherState.empty], by intro b hb; cases hb⟩
    simpa using this
  obtain ⟨hjoin, hlt, hcount, hbatch⟩ := hinv
  have hdiv : (submitAll B BatcherState.empty ms).emitted.length = ms.length / B := by
    have : ms.length = B * (submitAll B BatcherState.empty ms).emitted.length +
        (submitAll B BatcherState.empty ms).pending.length := by
      rw [Nat.mul_comm]
      omega
    rw [this, Nat.mul_add_div hB, Nat.div_eq_of_lt hlt]
    omega
  have hmod : (submitAll B BatcherState.empty ms).pending.length = ms.length % B := by
    have : ms.length = B * (submitAll B BatcherState.empty ms).emitted.length +
        (submitAll B BatcherState.empty ms).pending.length := by
      rw [Nat.mul_comm]
      omega
    rw [this, Nat.mul_add_mod, Nat.mod_eq_of_lt hlt]
    
  refine ⟨hdiv, hbatch, hjoin, hmod, ?_⟩
  intro ops
  have hflush : ∀ (reason : String) (s : BatcherState),
      (∀ b ∈ s.emitted, b.1 ≠ []) → ∀ b ∈ (MessageBatcher.flush reason s).emitted, b.1 ≠ [] := by
    intro reason s hs b hb
    by_cases hp : s.pending = []
    · exact hs b (by simpa [MessageBatcher.flush, hp] using hb)
    · simp only [MessageBatcher.flush, if_neg hp] at hb
      rcases List.mem_append.mp hb with hb | hb
      · exact hs b hb
      · simp at hb
        subst hb
        exact hp
  have hstep : ∀ (s : BatcherState) (op : BatcherOp),
      (∀ b ∈ s.emitted, b.1 ≠ []) → ∀ b ∈ (applyBatcherOp B s op).emitted, b.1 ≠ [] := by
    intro s op hs
    cases op with
    | sub m =>
      intro b hb
      simp only [applyBatcherOp, MessageBatcher.submit] at hb
      by_cases hfull : B ≤ (s.pending ++ [m]).length
      · rw [if_pos hfull] at hb
        exact hflush "size" { pending := s.pending ++ [m], emitted := s.emitted }
          hs b (by simpa using hb)
      · rw [if_neg hfull] at hb
        exact hs b hb
    | timerFlush => exact hflush "timer" s hs
    | stopFlush => exact hflush "stop" s hs
  have hrun : ∀ (ops2 : List BatcherOp) (s : BatcherState),
      (∀ b ∈ s.emitted, b.1 ≠ []) →
      ∀ b ∈ (ops2.foldl (applyBatcherOp B) s).emitted, b.1 ≠ [] := by
    intro ops2
    induction ops2 with
    | nil => intro s hs; simpa using hs
    | cons op rest ih =>
      intro s hs
      exact ih (applyBatcherOp B s op) (hstep s op hs)
  exact hrun ops BatcherState.empty (by intro b hb; cases hb)

/-- Witness for C4 (amended): five submissions with `B = 2` yield two
full size batches and one pending leftover. -/
theorem batcher_size_flushes_witness :
    (submitAll 2 BatcherState.empty
      [⟨⟨0, 0, 1, 0, Option.none, Option.none⟩, Option.none, Option.none, Option.none, []⟩,
       ⟨⟨0, 0, 2, 0, Option.none, Option.none⟩, Option.none, Option.none, Option.none, []⟩,
       ⟨⟨0, 0, 3, 0, Option.none, Option.none⟩, Option.none, Option.none, Option.none, []⟩,
       ⟨⟨0, 0, 4, 0, Option.none, Option.none⟩, Option.none, Option.none, Option.none, []⟩,
       ⟨⟨0, 0, 5, 0, Option.none, Option.none⟩, Option.none, Option.none, Option.none, []⟩]).emitted.length =
      5 / 2 := by
  exact (batcher_size_flushes 2
    [⟨⟨0, 0, 1, 0, Option.none, Option.none⟩, Option.none, Option.none, Option.none, []⟩,
     ⟨⟨0, 0, 2, 0, Option.none, Option.none⟩, Option.none, Option.none, Option.none, []⟩,
     ⟨⟨0, 0, 3, 0, Option.none, Option.none⟩, Option.none, Option.none, Option.none, []⟩,
     ⟨⟨0, 0, 4, 0, Option.none, Option.none⟩, Option.none, Option.none, Option.none, []⟩,
     ⟨⟨0, 0, 5, 0, Option.none, Option.none⟩, Option.none, Option.none, Option.none, []⟩]
    (by decide)).1

/-! ## OpenAI adapter retry loop (`adapters/openai.py`)

`OpenAIAdapter.post` wraps one HTTP POST in a tenacity `AsyncRetrying`
configured with `wait_exponential(multiplier=0.5, min=0.5, max=5.0)`,
`stop_after_attempt(5)` and
`retry_if_exception_type((httpx.TimeoutException, httpx.ReadError))`.
The transport is modelled as a function from the attempt number to the
outcome of that attempt; tenacity's semantics are: an exception in the
retryable tuple triggers a new attempt until five attempts have run
(then a retry error), any other exception propagates at once. -/

/-- The outcome of one HTTP POST attempt: a transport exception
(`httpx.TimeoutException` / `httpx.ReadError`) or a response with a
status code. -/
inductive HttpOutcome where
  | timeout
  | readError
  | status (code : Nat)
deriving DecidableEq, Repr

/-- The observable result of `OpenAIAdapter.post` (`openai.py`,
lines 37-65): the parsed body on a 2xx/3xx response, the
`httpx.HTTPStatusError` raised by `raise_for_status()` on a 5xx, the
`OpenAIAdapterError` raised on a 4xx, or exhaustion of the five
attempts on repeated transport errors. -/
inductive PostResult where
  | ok (code : Nat)
  | httpStatusError (code : Nat)
  | adapterError (code : Nat)
  | retryExhausted
deriving DecidableEq, Repr

/-- The retry loop of `OpenAIAdapter.post`: `attempt` is the 1-based
attempt number, `remaining` the attempts still allowed
(`stop_after_attempt(5)`).  Only `timeout` and `readError` are
retryable; a 5xx raises `httpx.HTTPStatusError`, which is **not** in
the retryable tuple and therefore propagates immediately; a 4xx raises
the non-retryable `OpenAIAdapterError`. -/
def postGo (responses : Nat → HttpOutcome) (attempt : Nat) : Nat → PostResult
  | 0 => PostResult.retryExhausted
  | remaining + 1 =>
    match responses attempt with
    | HttpOutcome.timeout => postGo responses (attempt + 1) remaining
    | HttpOutcome.readError => postGo responses (attempt + 1) remaining
    | HttpOutcome.status code =>
      if 500 ≤ code then PostResult.httpStatusError code
      else if 400 ≤ code then PostResult.adapterError code
      else PostResult.ok code

/-- `OpenAIAdapter.post` over a modelled transport: first attempt is
attempt 1; at most 5 attempts. -/
def OpenAIAdapter.post (responses : Nat → HttpOutcome) : PostResult :=
  postGo responses 1 5

/-- Claim C7, evaluated on the code: (1) at the failing input — a 500
response on the first attempt with a 200 available on the second — the
adapter raises the HTTP status error immediately and never retries,
contradicting the claim that 5xx is retried; (2) a 404 raises the
non-retryable adapter error at once, as claimed; (3) transport errors
are retried: two timeouts followed by a 200 succeed; (4) five straight
timeouts exhaust the retry budget. -/
theorem post_5xx_not_retried :
    OpenAIAdapter.post (fun n => if n = 1 then HttpOutcome.status 500
      else HttpOutcome.status 200) = PostResult.httpStatusError 500 ∧
    OpenAIAdapter.post (fun n => if n = 1 then HttpOutcome.status 404
      else HttpOutcome.status 200) = PostResult.adapterError 404 ∧
    OpenAIAdapter.post (fun n => if n < 3 then HttpOutcome.timeout
      else HttpOutcome.status 200) = PostResult.ok 200 ∧
    OpenAIAdapter.post (fun _ => HttpOutcome.timeout) = PostResult.retryExhausted := by
  refine ⟨rfl, rfl, rfl, rfl⟩

/-! ## Contextual layer (`pipeline/layers/chatgpt.py`)

The post-parse fragment of `ChatGPTLayer.evaluate` (from the parsed
JSON payload to the returned verdict) and `_resolve_rule` are embedded;
the HTTP call, truncation handling and JSON extraction happen before
this fragment and are not needed by the claim. -/

/-- The parsed LLM payload
`{"violation":bool,"category":str,"severity":str,"action":str,"reason":str}`. -/
structure GptModerationPayload where
  violation : Bool
  category : String
  severity : String
  action : String
  reason : Option String
deriving DecidableEq, Repr

/-- Python `str.lower()` on one character, modelled for the ASCII
range (rule categories and LLM category strings are ASCII). -/
def pyLowerChar (c : Char) : Char :=
  if 'A' ≤ c ∧ c ≤ 'Z' then Char.ofNat (c.toNat + 32) else c

/-- Python `str.lower()`, modelled for the ASCII range. -/
def pyLower (s : String) : String := String.mk (s.data.map pyLowerChar)

/-- The match test of `ChatGPTLayer._resolve_rule` (`chatgpt.py`,
lines 213-221): a truthy `rule.category` equal (lowercased) to the
reported category, or membership of the category in the lowercased
`metadata.aliases` (an empty alias list is falsy and skipped, which
coincides with empty-list membership). -/
def ruleMatches (category : String) (r : ModerationRule) : Bool :=
  (match r.category with
   | Option.some c => !(c = "") && decide (pyLower c = category)
   | Option.none => false) ||
  (!r.aliases.isEmpty && decide (category ∈ r.aliases.map pyLower))

/-- The loop of `ChatGPTLayer._resolve_rule` (`chatgpt.py`,
lines 212-223): keep the first matching rule with strictly greatest
priority (`rule.priority > best.priority`). -/
def resolveRuleAux (category : String) :
    List ModerationRule → Option ModerationRule → Option ModerationRule
  | [], best => best
  | r :: rest, best =>
    if ruleMatches category r then
      match best with
      | Option.none => resolveRuleAux category rest (Option.some r)
      | Option.some b =>
        if b.priority.val < r.priority.val then
          resolveRuleAux category rest (Option.some r)
        else
          resolveRuleAux category rest (Option.some b)
    else
      resolveRuleAux category rest best

/-- `ChatGPTLayer._resolve_rule` over the rules fetched for
`(CHATGPT, chat_id)`. -/
def ChatGPTLayer.resolve_rule (rules : List ModerationRule) (category : String) :
    Option ModerationRule :=
  resolveRuleAux category rules Option.none

/-- The fragment of `ChatGPTLayer.evaluate` after JSON parsing
(`chatgpt.py`, lines 138-184): no verdict unless `violation` is true;
lowercase the reported category; resolve it to a rule; on a hit build a
verdict carrying the rule's id, priority and **configured action** (the
LLM's suggested action is only logged), with
`reason = data.reason or rule.description`. -/
def ChatGPTLayer.evaluate_parsed (rules : List ModerationRule)
    (data : GptModerationPayload) : Option ModerationVerdict :=
  if !data.violation then Option.none
  else
    match ChatGPTLayer.resolve_rule rules (pyLower data.category) with
    | Option.none => Option.none
    | Option.some rule =>
      Option.some { layer := LayerType.chatgpt, rule_code := rule.rule_id,
                    priority := rule.priority, action := rule.action,
                    reason := pyStrOr data.reason rule.description, violated := true }

lemma resolveRuleAux_cons_nomatch (category : String) (r : ModerationRule)
    (rest : List ModerationRule) (best : Option ModerationRule)
    (hm : ruleMatches category r = false) :
    resolveRuleAux category (r :: rest) best = resolveRuleAux category rest best := by
  cases best <;> simp [resolveRuleAux, hm]

lemma resolveRuleAux_cons_match_first (category : String) (r : ModerationRule)
    (rest : List ModerationRule) (hm : ruleMatches category r = true) :
    resolveRuleAux category (r :: rest) Option.none =
      resolveRuleAux category rest (Option.some r) := by
  simp [resolveRuleAux, hm]

lemma resolveRuleAux_cons_match_better (category : String) (r b : ModerationRule)
    (rest : List ModerationRule) (hm : ruleMatches category r = true)
    (hp : b.priority.val < r.priority.val) :
    resolveRuleAux category (r :: rest) (Option.some b) =
      resolveRuleAux category rest (Option.some r) := by
  simp [resolveRuleAux, hm, hp]

lemma resolveRuleAux_cons_match_worse (category : String) (r b : ModerationRule)
    (rest : List ModerationRule) (hm : ruleMatches category r = true)
    (hp : ¬ b.priority.val < r.priority.val) :
    resolveRuleAux category (r :: rest) (Option.some b) =
      resolveRuleAux category rest (Option.some b) := by
  simp [resolveRuleAux, hm, hp]

lemma resolveRuleAux_none (category : String) (rules : List ModerationRule) :
    ∀ best, resolveRuleAux category rules best = Option.none ↔
      (best = Option.none ∧ ∀ r ∈ rules, ruleMatches category r = false) := by
  induction rules with
  | nil => intro best; simp [resolveRuleAux]
  | cons r rest ih =>
    intro best
    by_cases hm : ruleMatches category r
    · cases best with
      | none =>
        rw [resolveRuleAux_cons_match_first category r rest hm, ih]
        simp [hm]
      | some b =>
        by_cases hp : b.priority.val < r.priority.val
        · rw [resolveRuleAux_cons_match_better category r b rest hm hp, ih]
          simp
        · rw [resolveRuleAux_cons_match_worse category r b rest hm hp, ih]
          simp
    · have hm2 : ruleMatches category r = false := by simpa using hm
      rw [resolveRuleAux_cons_nomatch category r rest best hm2, ih]
      simp [hm2]

lemma resolveRuleAux_some (category : String) (rules : List ModerationRule) :
    ∀ best b2, resolveRuleAux category rules best = Option.some b2 →
      (best = Option.some b2 ∨ (b2 ∈ rules ∧ ruleMatches category b2 = true)) ∧
      (∀ w, best = Option.some w → w.priority.val ≤ b2.priority.val) ∧
      (∀ r ∈ rules, ruleMatches category r = true →
        r.priority.val ≤ b2.priority.val) := by
  induction rules with
  | nil =>
    intro best b2 h
    simp only [resolveRuleAux] at h
    refine ⟨Or.inl h, ?_, ?_⟩
    · intro w hw; rw [hw] at h; cases h; exact le_refl _
    · intro r hr; cases hr
  | cons r rest ih =>
    intro best b2 h
    by_cases hm : ruleMatches category r
    · cases best with
      | none =>
        rw [resolveRuleAux_cons_match_first category r rest hm] at h
        have hrec := ih (Option.some r) b2 h
        have hrb : r.priority.val ≤ b2.priority.val := hrec.2.1 r rfl
        refine ⟨?_, ?_, ?_⟩
        · rcases hrec.1 with heq | hmem
          · cases heq; exact Or.inr ⟨by simp, hm⟩
          · exact Or.inr ⟨by simp [hmem.1], hmem.2⟩
        · intro w hw; cases hw
        · intro u hu hum
          rcases List.mem_cons.mp hu with hu | hu
          · subst hu; exact hrb
          · exact hrec.2.2 u hu hum
      | some b =>
        by_cases hp : b.priority.val < r.priority.val
        · rw [resolveRuleAux_cons_match_better category r b rest hm hp] at h
          have hrec := ih (Option.some r) b2 h
          have hrb : r.priority.val ≤ b2.priority.val := hrec.2.1 r rfl
          refine ⟨?_, ?_, ?_⟩
          · rcases hrec.1 with heq | hmem
            · cases heq; exact Or.inr ⟨by simp, hm⟩
            · exact Or.inr ⟨by simp [hmem.1], hmem.2⟩
          · intro w hw; cases hw; omega
          · intro u hu hum
            rcases List.mem_cons.mp hu with hu | hu
            · subst hu; exact hrb
            · exact hrec.2.2 u hu hum
        · rw [resolveRuleAux_cons_match_worse category r b rest hm hp] at h
          have hrec := ih (Option.some b) b2 h
          have hbb : b.priority.val ≤ b2.priority.val := hrec.2.1 b rfl
          refine ⟨?_, ?_, ?_⟩
          · rcases hrec.1 with heq | hmem
            · exact Or.inl heq
            · exact Or.inr ⟨by simp [hmem.1], hmem.2⟩
          · intro w hw; cases hw; exact hbb
          · intro u hu hum
            rcases List.mem_cons.mp hu with hu | hu
            · subst hu; omega
            · exact hrec.2.2 u hu hum
    · have hm2 : ruleMatches category r = false := by simpa using hm
      rw [resolveRuleAux_cons_nomatch category r rest best hm2] at h
      have hrec := ih best b2 h
      refine ⟨?_, hrec.2.1, ?_⟩
      · rcases hrec.1 with heq | hmem
        · exact Or.inl heq
        · exact Or.inr ⟨by simp [hmem.1], hmem.2⟩
      · intro u hu hum
        rcases List.mem_cons.mp hu with hu | hu
        · subst hu; simp [hum] at hm2
        · exact hrec.2.2 u hu hum

/-- Claim C9: for a parsed response with `violation = true`, the
contextual layer resolves the lowercased reported category against the
configured rules by `ruleMatches` (case-insensitive equality on
`rule.category` or membership in the lowercased aliases); when no rule
matches, `evaluate` returns no verdict; when resolution picks a rule,
that rule is a matching configured rule of maximal priority and the
verdict carries the **rule's** id and configured action (not the LLM's
suggested action). -/
theorem chatgpt_layer_resolution (rules : List ModerationRule)
    (data : GptModerationPayload) (hviol : data.violation = true) :
    ((∀ r ∈ rules, ruleMatches (pyLower data.category) r = false) →
      ChatGPTLayer.evaluate_parsed rules data = Option.none) ∧
    (∀ rule, ChatGPTLayer.resolve_rule rules (pyLower data.category) = Option.some rule →
      rule ∈ rules ∧ ruleMatches (pyLower data.category) rule = true ∧
      (∀ r ∈ rules, ruleMatches (pyLower data.category) r = true →
        r.priority.val ≤ rule.priority.val) ∧
      ChatGPTLayer.evaluate_parsed rules data =
        Option.some { layer := LayerType.chatgpt, rule_code := rule.rule_id,
                      priority := rule.priority, action := rule.action,
                      reason := pyStrOr data.reason rule.description,
                      violated := true }) := by
  constructor
  · intro hnone
    have hres : ChatGPTLayer.resolve_rule rules (pyLower data.category) = Option.none :=
      (resolveRuleAux_none (pyLower data.category) rules Option.none).mpr ⟨rfl, hnone⟩
    simp [ChatGPTLayer.evaluate_parsed, hviol, hres]
  · intro rule hrule
    have hspec := resolveRuleAux_some (pyLower data.category) rules Option.none rule hrule
    have hmem : rule ∈ rules ∧ ruleMatches (pyLower data.category) rule = true := by
      rcases hspec.1 with heq | hmem
      · cases heq
      · exact hmem
    refine ⟨hmem.1, hmem.2, hspec.2.2, ?_⟩
    simp [ChatGPTLayer.evaluate_parsed, hviol, ChatGPTLayer.resolve_rule] at hrule ⊢
    simp [hrule]

/-- Concrete contextual rule for the C9 witness: category `hate` with
alias `harassment`, configured action `ban`. -/
def c9rule : ModerationRule :=
  { rule_id := "r3", description := "no hate", action := ActionType.ban,
    source := RuleSource.admin, layer := LayerType.chatgpt,
    rule_type := RuleType.contextual, chat_id := Option.none,
    pattern := Option.none, category := Option.some "hate",
    priority := ViolationPriority.hate, action_duration_seconds := Option.none,
    aliases := ["Harassment"] }

/-- Witness for C9: the LLM reports category `HARASSMENT` with suggested
action `warn`; the alias resolves to the configured rule and the verdict
carries the rule's `ban` action and id. -/
theorem chatgpt_layer_resolution_witness :
    c9rule ∈ [c9rule] ∧
    ChatGPTLayer.evaluate_parsed [c9rule]
      ⟨true, "HARASSMENT", "hate", "warn", Option.some "bad"⟩ =
      Option.some { layer := LayerType.chatgpt, rule_code := "r3",
                    priority := ViolationPriority.hate, action := ActionType.ban,
                    reason := "bad", violated := true } := by
  have h := (chatgpt_layer_resolution [c9rule]
    ⟨true, "HARASSMENT", "hate", "warn", Option.some "bad"⟩ rfl).2 c9rule
    (by simp only [ChatGPTLayer.resolve_rule, resolveRuleAux, ruleMatches, c9rule]
        decide)
  exact ⟨h.1, h.2.2.2⟩
